import Mathlib

/-!
# Verification of the lifetime name-resolution pass
  (src/librustc/middle/resolve_lifetime.rs)

Shallow embedding of the pass: the scope-chain model, the bound and free
reference resolvers, the early/late partitioner, the declaration validator,
and the tree walker, translated from the source file.  Interned symbols,
node identities and code extents are modelled as natural numbers.
-/

namespace ResolveLifetime

/-- Interned symbol (ast::Name). -/
abbrev Name := Nat

/-- Stable node identity (ast::NodeId). -/
abbrev NodeId := Nat

/-- Opaque identifier of a block's lexical span (region::CodeExtent).
`CodeExtent::from_node_id` is modelled as the identity on node ids. -/
abbrev CodeExtent := Nat

/-- The distinguished interned symbol of the reserved lifetime
(special_idents::static_lifetime.name); modelled as the fixed symbol 0. -/
def static_lifetime_name : Name := 0

/-- The placeholder node id (ast::DUMMY_NODE_ID); real nodes carry ids ≥ 1. -/
def DUMMY_NODE_ID : NodeId := 0

/-- ast::Lifetime: one lifetime occurrence, carrying its node id and name.
The source also carries a span; diagnostics are keyed here by the node id. -/
structure Lifetime where
  id : NodeId
  name : Name
deriving DecidableEq, Repr

/-- ast::LifetimeDef: a lifetime declaration with its outlives-bounds. -/
structure LifetimeDef where
  lifetime : Lifetime
  bounds : List Lifetime
deriving DecidableEq, Repr

/-- subst::ParamSpace (the two spaces used by this pass). -/
inductive ParamSpace where
  | TypeSpace
  | FnSpace
deriving DecidableEq, Repr

/-- enum DefRegion: the resolution result recorded per reference.
`DefLateBoundRegion`'s ty::DebruijnIndex is modelled by its depth. -/
inductive DefRegion where
  | DefStaticRegion
  | DefEarlyBoundRegion (space : ParamSpace) (index : Nat) (declId : NodeId)
  | DefLateBoundRegion (depth : Nat) (declId : NodeId)
  | DefFreeRegion (extent : CodeExtent) (declId : NodeId)
deriving DecidableEq, Repr

/-- enum ScopeChain: the persistent scope chain; the parent pointer becomes
structural nesting. -/
inductive ScopeChain where
  | EarlyScope (space : ParamSpace) (lifetimes : List LifetimeDef) (s : ScopeChain)
  | LateScope (lifetimes : List LifetimeDef) (s : ScopeChain)
  | BlockScope (extent : CodeExtent) (s : ScopeChain)
  | RootScope
deriving DecidableEq, Repr

/-- The diagnostics the pass can emit (sess.span_err calls), keyed by the
node id of the offending occurrence. -/
inductive LifetimeError where
  | ReservedLifetimeName (id : NodeId)
  | DuplicateLifetimeName (id : NodeId)
  | UndeclaredLifetime (id : NodeId)
deriving DecidableEq, Repr

/-- The two mutable resources threaded through the walk: the result table
(NamedRegionMap, an association of node ids to regions, insertion
overwriting an existing key) and the ordered diagnostic sink. -/
structure St where
  named_region_map : List (NodeId × DefRegion)
  errs : List LifetimeError
deriving DecidableEq, Repr

/-- Insert into the result table with NodeMap semantics: replace the
binding of an existing key, otherwise append. -/
def insertNode (id : NodeId) (d : DefRegion) :
    List (NodeId × DefRegion) → List (NodeId × DefRegion)
  | [] => [(id, d)]
  | (k, v) :: rest =>
      if k = id then (k, d) :: rest else (k, v) :: insertNode id d rest

/-- Look a node id up in the result table. -/
def lookupNode (id : NodeId) : List (NodeId × DefRegion) → Option DefRegion
  | [] => none
  | (k, v) :: rest => if k = id then some v else lookupNode id rest

/-- fn search_lifetimes: first declaration with the reference's name,
returning its position in the list and the declaration's node id. -/
def search_lifetimes (lifetimes : List LifetimeDef) (ref : Lifetime) :
    Option (Nat × NodeId) :=
  match lifetimes with
  | [] => none
  | d :: rest =>
      if d.lifetime.name = ref.name then some (0, d.lifetime.id)
      else (search_lifetimes rest ref).map (fun p => (p.1 + 1, p.2))

/-- fn resolve_free_lifetime_ref: walk outward from a block, re-tracking the
extent on every further block frame; the first Early/Late frame whose list
contains the name ends the walk with a free region at the tracked extent.
`none` is the unresolved outcome. -/
def resolve_free_lifetime_ref (scope_data : CodeExtent) (ref : Lifetime) :
    ScopeChain → Option DefRegion
  | .BlockScope blk_scope_data s => resolve_free_lifetime_ref blk_scope_data ref s
  | .RootScope => none
  | .EarlyScope _ lifetimes s =>
      match search_lifetimes lifetimes ref with
      | some (_, declId) => some (.DefFreeRegion scope_data declId)
      | none => resolve_free_lifetime_ref scope_data ref s
  | .LateScope lifetimes s =>
      match search_lifetimes lifetimes ref with
      | some (_, declId) => some (.DefFreeRegion scope_data declId)
      | none => resolve_free_lifetime_ref scope_data ref s

/-- The loop of fn resolve_lifetime_ref, with the late-scope counter
(`late_depth`) explicit. -/
def resolve_lifetime_ref_aux (late_depth : Nat) (ref : Lifetime) :
    ScopeChain → Option DefRegion
  | .BlockScope blk_scope s => resolve_free_lifetime_ref blk_scope ref s
  | .RootScope => none
  | .EarlyScope space lifetimes s =>
      match search_lifetimes lifetimes ref with
      | some (index, declId) => some (.DefEarlyBoundRegion space index declId)
      | none => resolve_lifetime_ref_aux late_depth ref s
  | .LateScope lifetimes s =>
      match search_lifetimes lifetimes ref with
      | some (_, declId) => some (.DefLateBoundRegion (late_depth + 1) declId)
      | none => resolve_lifetime_ref_aux (late_depth + 1) ref s

/-- fn resolve_lifetime_ref, as the pure resolution outcome: `none` means
the reference is unresolved (fn unresolved_lifetime_ref fires). -/
def resolve_lifetime_ref (ref : Lifetime) (scope : ScopeChain) : Option DefRegion :=
  resolve_lifetime_ref_aux 0 ref scope

/-! ## Generics and the early/late partitioner -/

/-- One type-parameter bound (ast::TyParamBound), carrying exactly the
lifetime data this pass consumes: a region bound is itself a lifetime
reference; a trait bound (ast::PolyTraitRef) carries the binder's own
lifetime declarations and the lifetime references occurring in its trait
path, in source order. -/
inductive TyParamBound where
  | region_bound (l : Lifetime)
  | trait_bound (bound_lifetimes : List LifetimeDef) (refs : List Lifetime)
deriving DecidableEq, Repr

/-- ast::TyParam, restricted to its bound list (the only part this pass
reads; defaults are modelled as absent). -/
structure TyParam where
  bounds : List TyParamBound
deriving DecidableEq, Repr

/-- ast::WherePredicate: a bound-predicate carries its bound list; an
equality-predicate carries the lifetime references occurring in its path
and type (visited by visit_generics, never scanned by the partitioner). -/
inductive WherePredicate where
  | bound_predicate (bounds : List TyParamBound)
  | eq_predicate (refs : List Lifetime)
deriving DecidableEq, Repr

/-- ast::Generics: declared lifetimes, type parameters, where-clause. -/
structure Generics where
  lifetimes : List LifetimeDef
  ty_params : List TyParam
  predicates : List WherePredicate
deriving DecidableEq, Repr

/-- Vec::swap_remove(i): replace the element at `i` with the last element
and pop the last. -/
def swap_remove (l : List Name) (i : Nat) : List Name :=
  match l.getLast? with
  | none => l
  | some last => (l.dropLast).set i last

/-- fn shuffle: if the name still sits in the late list, remove it there
(by swap_remove at its first position) and push it onto the early list. -/
def shuffle (p : List Name × List Name) (name : Name) : List Name × List Name :=
  match p.2.findIdx? (fun n => n = name) with
  | some index => (p.1 ++ [name], swap_remove p.2 index)
  | none => p

/-- Shuffle each collected reference in order (FreeLifetimeCollector's
visit_lifetime_ref calls during one helper walk). -/
def shuffle_all (p : List Name × List Name) (names : List Name) :
    List Name × List Name :=
  names.foldl shuffle p

/-- Modelled from the spec: "Scan every type-parameter bound … for
lifetime references" — the sequence of lifetime-reference names a
walk_ty_param_bounds_helper walk presents to FreeLifetimeCollector for one
bound, in source order.  (The walk itself lives in syntax::visit, outside
this repository's sources.) -/
def collected_refs : TyParamBound → List Name
  | .region_bound l => [l.name]
  | .trait_bound _ refs => refs.map (fun r => r.name)

/-- The where-clause loop of fn early_bound_lifetime_names: bound-predicates
have their bounds scanned; an equality-predicate hits `unimplemented!()`,
modelled as `none` (the pass panics, aborting the traversal). -/
def scan_predicates (p : List Name × List Name) :
    List WherePredicate → Option (List Name × List Name)
  | [] => some p
  | .bound_predicate bounds :: rest =>
      scan_predicates (shuffle_all p (bounds.map collected_refs).flatten) rest
  | .eq_predicate _ :: _ => none

/-- The second promotion phase of fn early_bound_lifetime_names: a declared
lifetime that itself carries an outlives-bound is shuffled early, and so is
every name inside its bound — one non-cascading pass. -/
def promote_bounded_lifetimes (p : List Name × List Name)
    (defs : List LifetimeDef) : List Name × List Name :=
  defs.foldl
    (fun p ld =>
      if ld.bounds.isEmpty then p
      else shuffle_all (shuffle p ld.lifetime.name)
             (ld.bounds.map (fun b => b.name)))
    p

/-- fn early_bound_lifetime_names: the list of (at least the) early-bound
lifetime names, in first-promotion order; `none` models the
`unimplemented!()` panic on a where-clause equality-predicate. -/
def early_bound_lifetime_names (g : Generics) : Option (List Name) :=
  let late_bound := g.lifetimes.map (fun l => l.lifetime.name)
  let p0 : List Name × List Name := ([], late_bound)
  let p1 := g.ty_params.foldl
    (fun p tp => shuffle_all p (tp.bounds.map collected_refs).flatten) p0
  match scan_predicates p1 g.predicates with
  | none => none
  | some p2 => some (promote_bounded_lifetimes p2 g.lifetimes).1

/-! ## State helpers, insertion, validation -/

/-- Record one diagnostic (sess.span_err); the walk continues. -/
def push_err (e : LifetimeError) (st : St) : St :=
  { st with errs := st.errs ++ [e] }

/-- fn insert_lifetime: inserting for the placeholder id is a fatal
internal-invariant violation (sess.span_bug), modelled as `none`. -/
def insert_lifetime (l : Lifetime) (d : DefRegion) (st : St) : Option St :=
  if l.id = DUMMY_NODE_ID then none
  else some { st with named_region_map := insertNode l.id d st.named_region_map }

/-- The state action of fn resolve_lifetime_ref: insert on success, report
an undeclared-lifetime error on failure.  Note the reserved-name shortcut
lives in visit_lifetime_ref, not here. -/
def resolve_and_insert (scope : ScopeChain) (l : Lifetime) (st : St) : Option St :=
  match resolve_lifetime_ref l scope with
  | some d => insert_lifetime l d st
  | none => some (push_err (.UndeclaredLifetime l.id) st)

/-- fn visit_lifetime_ref: the reserved static name resolves immediately to
the static region; everything else goes through the scope-chain walk. -/
def visit_lifetime_ref (scope : ScopeChain) (l : Lifetime) (st : St) : Option St :=
  if l.name = static_lifetime_name then insert_lifetime l .DefStaticRegion st
  else resolve_and_insert scope l st

/-- The reserved-name scan of one outer iteration of fn
check_lifetime_defs: the inner `for lifetime in lifetimes.iter()` loop
reports every declaration whose name is the reserved static identifier —
over the whole set, once per outer iteration. -/
def reserved_scan (lifetimes : List LifetimeDef) : List LifetimeError :=
  (lifetimes.filter (fun l => l.lifetime.name = static_lifetime_name)).map
    (fun l => .ReservedLifetimeName l.lifetime.id)

/-- The duplicate scan of one outer iteration of fn check_lifetime_defs:
`for j in i+1..len`, reporting every later declaration that repeats
lifetime_i's name, at the later occurrence. -/
def dup_scan (lifetime_i : LifetimeDef) (rest : List LifetimeDef) :
    List LifetimeError :=
  (rest.filter (fun l => l.lifetime.name = lifetime_i.lifetime.name)).map
    (fun l => .DuplicateLifetimeName l.lifetime.id)

/-- Resolve each outlives-bound of one declaration (the `for bound in
lifetime_i.bounds` loop), against the already-extended scope chain. -/
def resolve_bounds (scope : ScopeChain) : List Lifetime → St → Option St
  | [], st => some st
  | b :: rest, st =>
      match resolve_and_insert scope b st with
      | none => none
      | some st' => resolve_bounds scope rest st'

/-- The outer `for i in range(0, lifetimes.len())` loop of fn
check_lifetime_defs, structurally: `all` is the full declaration set,
`rest` the declarations from index i on. -/
def check_lifetime_defs_aux (scope : ScopeChain) (all : List LifetimeDef) :
    List LifetimeDef → St → Option St
  | [], st => some st
  | lifetime_i :: rest, st =>
      let st1 := { st with errs := st.errs ++ reserved_scan all }
      let st2 := { st1 with errs := st1.errs ++ dup_scan lifetime_i rest }
      match resolve_bounds scope lifetime_i.bounds st2 with
      | none => none
      | some st3 => check_lifetime_defs_aux scope all rest st3

/-- fn check_lifetime_defs. -/
def check_lifetime_defs (scope : ScopeChain) (lifetimes : List LifetimeDef)
    (st : St) : Option St :=
  check_lifetime_defs_aux scope lifetimes lifetimes st

/-! ## The tree walker

The program tree and the traversal order of the generic walk functions
(syntax::ast and syntax::visit) are not part of this repository's sources;
the node kinds below and the source-order child walks are modelled from the
spec ("a fully parsed program tree — items, generics clauses, function
signatures, types, and blocks (including nested items)"; "traversal order
is lexical (source order, left-to-right, depth-first)").  The per-kind
scope handling is translated from the Visitor impl in the source. -/

/-- A type, restricted to the fragment the claims exercise: the unit-like
leaf (no lifetime data) and a reference type carrying one lifetime
occurrence; every other ast::Ty kind falls into the walker's default
`walk_ty` arm just like these. -/
inductive Ty where
  | ty_unit
  | ty_rptr (l : Lifetime) (inner : Ty)
deriving DecidableEq, Repr

mutual
/-- An item.  Enum/struct/trait bodies are abstracted to the list of types
they contain; an impl carries its self type and its contained types. -/
inductive Item where
  | item_fn (generics : Generics) (inputs : List Ty) (output : Ty) (body : Block)
  | item_mod (items : List Item)
  | item_static (ty : Ty)
  | item_const (ty : Ty)
  | item_ty (generics : Generics) (ty : Ty)
  | item_enum (generics : Generics) (tys : List Ty)
  | item_struct (generics : Generics) (tys : List Ty)
  | item_trait (generics : Generics) (tys : List Ty)
  | item_impl (generics : Generics) (self_ty : Ty) (tys : List Ty)

/-- ast::Block: its node id (whose CodeExtent it becomes) and statements. -/
inductive Block where
  | mk (id : NodeId) (stmts : List Stmt)

/-- A statement: a nested item, or a type occurrence (e.g. in a let). -/
inductive Stmt where
  | stmt_item (item : Item)
  | stmt_ty (ty : Ty)
end

/-- Walk a type: a reference type visits its lifetime then its inner type
(default walk_ty order). -/
def visit_ty (scope : ScopeChain) : Ty → St → Option St
  | .ty_unit, st => some st
  | .ty_rptr l inner, st =>
      match visit_lifetime_ref scope l st with
      | none => none
      | some st' => visit_ty scope inner st'

/-- Walk a list of types in order. -/
def visit_tys (scope : ScopeChain) : List Ty → St → Option St
  | [], st => some st
  | t :: ts, st =>
      match visit_ty scope t st with
      | none => none
      | some st' => visit_tys scope ts st'

/-- Visit a list of lifetime references in order. -/
def visit_lifetime_refs (scope : ScopeChain) : List Lifetime → St → Option St
  | [], st => some st
  | l :: ls, st =>
      match visit_lifetime_ref scope l st with
      | none => none
      | some st' => visit_lifetime_refs scope ls st'

/-- Modelled from the spec: the default walk of one lifetime declaration
(visit_lifetime_def, not overridden in the source) visits the
declaration's outlives-bounds as ordinary references. -/
def visit_lifetime_def (scope : ScopeChain) (ld : LifetimeDef) (st : St) :
    Option St :=
  visit_lifetime_refs scope ld.bounds st

/-- Visit each bound lifetime declaration (fn visit_poly_trait_ref's
`for lifetime in trait_ref.bound_lifetimes` loop). -/
def visit_lifetime_defs (scope : ScopeChain) : List LifetimeDef → St → Option St
  | [], st => some st
  | ld :: lds, st =>
      match visit_lifetime_def scope ld st with
      | none => none
      | some st' => visit_lifetime_defs scope lds st'

/-- fn visit_poly_trait_ref: push a Late scope over the bound's explicit
lifetime list, validate it, visit the declarations, then the trait path's
lifetime references inside the new scope. -/
def visit_poly_trait_ref (scope : ScopeChain) (bound_lifetimes : List LifetimeDef)
    (refs : List Lifetime) (st : St) : Option St :=
  let sc := ScopeChain.LateScope bound_lifetimes scope
  match check_lifetime_defs sc bound_lifetimes st with
  | none => none
  | some st1 =>
      match visit_lifetime_defs sc bound_lifetimes st1 with
      | none => none
      | some st2 => visit_lifetime_refs sc refs st2

/-- Visit one type-parameter bound (walk_ty_param_bounds_helper): a region
bound is a lifetime reference; a trait bound goes through
visit_poly_trait_ref. -/
def visit_ty_param_bound (scope : ScopeChain) (b : TyParamBound) (st : St) :
    Option St :=
  match b with
  | .region_bound l => visit_lifetime_ref scope l st
  | .trait_bound bls refs => visit_poly_trait_ref scope bls refs st

/-- Visit a bound list in order. -/
def visit_ty_param_bounds (scope : ScopeChain) : List TyParamBound → St → Option St
  | [], st => some st
  | b :: bs, st =>
      match visit_ty_param_bound scope b st with
      | none => none
      | some st' => visit_ty_param_bounds scope bs st'

/-- The where-clause loop of fn visit_generics: a bound-predicate's bounds
are visited; an equality-predicate's path and type are visited (their
lifetime references resolved) — no failure here, unlike the partitioner. -/
def visit_predicates (scope : ScopeChain) : List WherePredicate → St → Option St
  | [], st => some st
  | .bound_predicate bounds :: rest, st =>
      match visit_ty_param_bounds scope bounds st with
      | none => none
      | some st' => visit_predicates scope rest st'
  | .eq_predicate refs :: rest, st =>
      match visit_lifetime_refs scope refs st with
      | none => none
      | some st' => visit_predicates scope rest st'

/-- The type-parameter loop of fn visit_generics. -/
def visit_ty_params (scope : ScopeChain) : List TyParam → St → Option St
  | [], st => some st
  | tp :: tps, st =>
      match visit_ty_param_bounds scope tp.bounds st with
      | none => none
      | some st' => visit_ty_params scope tps st'

/-- fn visit_generics: type-parameter bounds, then where-clause predicates. -/
def visit_generics (scope : ScopeChain) (g : Generics) (st : St) : Option St :=
  match visit_ty_params scope g.ty_params st with
  | none => none
  | some st' => visit_predicates scope g.predicates st'

/-- The scope construction of fn visit_early_late: partition the declared
lifetimes by membership in the early-bound name list (order-preserving, so
the early scope lists them in declaration order), then push an Early scope
and a Late scope over the given parent.  `none` propagates the
partitioner's panic. -/
def early_late_scope (early_space : ParamSpace) (g : Generics)
    (parent : ScopeChain) : Option ScopeChain :=
  match early_bound_lifetime_names g with
  | none => none
  | some referenced_idents =>
      let early := g.lifetimes.filter
        (fun l => referenced_idents.contains l.lifetime.name)
      let late := g.lifetimes.filter
        (fun l => ¬ referenced_idents.contains l.lifetime.name)
      some (ScopeChain.LateScope late (ScopeChain.EarlyScope early_space early parent))

mutual
/-- fn visit_item: the per-kind scope dispatch of the Visitor impl.
Fn items reset to the root scope and then split early/late in visit_fn;
modules, statics and consts reset to the root scope; type aliases, enums,
structs and traits open one Early scope over the root; impls split
early/late over the *current* scope (and check their declarations a second
time inside the visit_early_late closure, as the source does). -/
def visit_item (scope : ScopeChain) (item : Item) (st : St) : Option St :=
  match item with
  | .item_fn g inputs output body =>
      match early_late_scope .FnSpace g .RootScope with
      | none => none
      | some sc =>
          match check_lifetime_defs sc g.lifetimes st with
          | none => none
          | some st1 =>
              match visit_generics sc g st1 with
              | none => none
              | some st2 =>
                  match visit_tys sc inputs st2 with
                  | none => none
                  | some st3 =>
                      match visit_ty sc output st3 with
                      | none => none
                      | some st4 => visit_block sc body st4
  | .item_mod items => visit_items .RootScope items st
  | .item_static t => visit_ty .RootScope t st
  | .item_const t => visit_ty .RootScope t st
  | .item_ty g t =>
      let sc := ScopeChain.EarlyScope .TypeSpace g.lifetimes .RootScope
      match check_lifetime_defs sc g.lifetimes st with
      | none => none
      | some st1 =>
          match visit_generics sc g st1 with
          | none => none
          | some st2 => visit_ty sc t st2
  | .item_enum g ts =>
      let sc := ScopeChain.EarlyScope .TypeSpace g.lifetimes .RootScope
      match check_lifetime_defs sc g.lifetimes st with
      | none => none
      | some st1 =>
          match visit_generics sc g st1 with
          | none => none
          | some st2 => visit_tys sc ts st2
  | .item_struct g ts =>
      let sc := ScopeChain.EarlyScope .TypeSpace g.lifetimes .RootScope
      match check_lifetime_defs sc g.lifetimes st with
      | none => none
      | some st1 =>
          match visit_generics sc g st1 with
          | none => none
          | some st2 => visit_tys sc ts st2
  | .item_trait g ts =>
      let sc := ScopeChain.EarlyScope .TypeSpace g.lifetimes .RootScope
      match check_lifetime_defs sc g.lifetimes st with
      | none => none
      | some st1 =>
          match visit_generics sc g st1 with
          | none => none
          | some st2 => visit_tys sc ts st2
  | .item_impl g self_ty ts =>
      match early_late_scope .TypeSpace g scope with
      | none => none
      | some sc =>
          match check_lifetime_defs sc g.lifetimes st with
          | none => none
          | some st1 =>
              match check_lifetime_defs sc g.lifetimes st1 with
              | none => none
              | some st2 =>
                  match visit_generics sc g st2 with
                  | none => none
                  | some st3 =>
                      match visit_ty sc self_ty st3 with
                      | none => none
                      | some st4 => visit_tys sc ts st4

/-- Walk a list of items in order. -/
def visit_items (scope : ScopeChain) (items : List Item) (st : St) : Option St :=
  match items with
  | [] => some st
  | i :: is' =>
      match visit_item scope i st with
      | none => none
      | some st' => visit_items scope is' st'

/-- fn visit_block: push a BlockScope carrying this block's extent. -/
def visit_block (scope : ScopeChain) (b : Block) (st : St) : Option St :=
  match b with
  | .mk id stmts => visit_stmts (ScopeChain.BlockScope id scope) stmts st

/-- Walk a block's statements in order. -/
def visit_stmts (scope : ScopeChain) (stmts : List Stmt) (st : St) : Option St :=
  match stmts with
  | [] => some st
  | .stmt_item i :: rest =>
      match visit_item scope i st with
      | none => none
      | some st' => visit_stmts scope rest st'
  | .stmt_ty t :: rest =>
      match visit_ty scope t st with
      | none => none
      | some st' => visit_stmts scope rest st'
end

/-- fn krate: walk the crate from the root scope with an empty table, then
abort if any error was reported.  The outer `none` is an escaped panic (the
traversal aborted mid-walk); `some none` is a completed walk that failed
(sess.abort_if_errors fired); `some (some table)` is overall success. -/
def krate (items : List Item) :
    Option (Option (List (NodeId × DefRegion))) :=
  match visit_items .RootScope items ⟨[], []⟩ with
  | none => none
  | some st => some (if st.errs.isEmpty then some st.named_region_map else none)

/-! ## Frame-list view of scope chains (for stating theorems about
arbitrary chain segments) -/

/-- One scope frame without its parent. -/
inductive Frame where
  | early (space : ParamSpace) (lifetimes : List LifetimeDef)
  | late (lifetimes : List LifetimeDef)
  | block (extent : CodeExtent)
deriving DecidableEq, Repr

/-- Push one frame onto a chain. -/
def pushFrame : Frame → ScopeChain → ScopeChain
  | .early sp ls, s => .EarlyScope sp ls s
  | .late ls, s => .LateScope ls s
  | .block e, s => .BlockScope e s

/-- Build a chain from a list of frames (innermost first) over a tail. -/
def extendScope : List Frame → ScopeChain → ScopeChain
  | [], s => s
  | f :: fs, s => pushFrame f (extendScope fs s)

/-- The frame does not bind the reference's name (blocks bind nothing). -/
def frame_misses (ref : Lifetime) : Frame → Bool
  | .early _ lifetimes => (search_lifetimes lifetimes ref).isNone
  | .late lifetimes => (search_lifetimes lifetimes ref).isNone
  | .block _ => true

/-- Whether a frame is a Late frame (the only kind that advances the
late-scope counter). -/
def is_late_frame : Frame → Bool
  | .late _ => true
  | _ => false

/-- Whether a frame is a Block frame. -/
def is_block_frame : Frame → Bool
  | .block _ => true
  | _ => false

/-- Count the Late frames in a segment. -/
def count_late (fs : List Frame) : Nat :=
  (fs.filter is_late_frame).length

/-- The extent tracked by the free-region walk after passing a segment of
non-matching frames, starting from `e`: each Block frame overwrites it. -/
def tracked_extent (e : CodeExtent) : List Frame → CodeExtent
  | [] => e
  | .block e' :: fs => tracked_extent e' fs
  | .early _ _ :: fs => tracked_extent e fs
  | .late _ :: fs => tracked_extent e fs

/-! ## Helper lemmas about the resolvers -/

theorem frame_misses_early {l : Lifetime} {sp : ParamSpace} {ls : List LifetimeDef}
    (h : frame_misses l (.early sp ls) = true) : search_lifetimes ls l = none := by
  simpa [frame_misses, Option.isNone_iff_eq_none] using h

theorem frame_misses_late {l : Lifetime} {ls : List LifetimeDef}
    (h : frame_misses l (.late ls) = true) : search_lifetimes ls l = none := by
  simpa [frame_misses, Option.isNone_iff_eq_none] using h

/-- Free-region resolution only ever produces a free region. -/
theorem resolve_free_is_free (l : Lifetime) :
    ∀ (s : ScopeChain) (e : CodeExtent) (r : DefRegion),
      resolve_free_lifetime_ref e l s = some r →
      ∃ e' d, r = DefRegion.DefFreeRegion e' d := by
  intro s
  induction s with
  | EarlyScope sp ls s ih =>
      intro e r h
      rw [resolve_free_lifetime_ref] at h
      split at h
      · exact ⟨e, _, (Option.some.inj h).symm⟩
      · exact ih e r h
  | LateScope ls s ih =>
      intro e r h
      rw [resolve_free_lifetime_ref] at h
      split at h
      · exact ⟨e, _, (Option.some.inj h).symm⟩
      · exact ih e r h
  | BlockScope e' s ih =>
      intro e r h
      rw [resolve_free_lifetime_ref] at h
      exact ih e' r h
  | RootScope =>
      intro e r h
      rw [resolve_free_lifetime_ref] at h
      exact absurd h (by simp)

/-- Walking the free-region resolver through a segment of non-matching
frames only updates the tracked extent, Block frames overwriting it. -/
theorem resolve_free_extend (l : Lifetime) :
    ∀ (fs : List Frame) (e : CodeExtent) (tail : ScopeChain),
      (∀ f ∈ fs, frame_misses l f = true) →
      resolve_free_lifetime_ref e l (extendScope fs tail) =
        resolve_free_lifetime_ref (tracked_extent e fs) l tail := by
  intro fs
  induction fs with
  | nil => intro e tail _; rfl
  | cons f fs ih =>
      intro e tail hm
      have hf := hm f (List.mem_cons_self _ _)
      have hrest : ∀ g ∈ fs, frame_misses l g = true :=
        fun g hg => hm g (List.mem_cons_of_mem _ hg)
      cases f with
      | early sp ls =>
          have hn := frame_misses_early hf
          rw [extendScope, pushFrame, resolve_free_lifetime_ref, hn, tracked_extent]
          exact ih e tail hrest
      | late ls =>
          have hn := frame_misses_late hf
          rw [extendScope, pushFrame, resolve_free_lifetime_ref, hn, tracked_extent]
          exact ih e tail hrest
      | block e' =>
          rw [extendScope, pushFrame, resolve_free_lifetime_ref, tracked_extent]
          exact ih e' tail hrest

/-- Walking the bound resolver through a segment of non-matching, non-block
frames advances the late-scope counter by exactly the number of Late frames
crossed; Early frames contribute nothing. -/
theorem resolve_aux_extend (l : Lifetime) :
    ∀ (fs : List Frame) (d : Nat) (tail : ScopeChain),
      (∀ f ∈ fs, frame_misses l f = true) →
      (∀ f ∈ fs, is_block_frame f = false) →
      resolve_lifetime_ref_aux d l (extendScope fs tail) =
        resolve_lifetime_ref_aux (d + count_late fs) l tail := by
  intro fs
  induction fs with
  | nil => intro d tail _ _; simp [extendScope, count_late, List.filter]
  | cons f fs ih =>
      intro d tail hm hb
      have hf := hm f (List.mem_cons_self _ _)
      have hrest : ∀ g ∈ fs, frame_misses l g = true :=
        fun g hg => hm g (List.mem_cons_of_mem _ hg)
      have hbrest : ∀ g ∈ fs, is_block_frame g = false :=
        fun g hg => hb g (List.mem_cons_of_mem _ hg)
      cases f with
      | early sp ls =>
          have hn := frame_misses_early hf
          rw [extendScope, pushFrame, resolve_lifetime_ref_aux, hn]
          rw [ih d tail hrest hbrest]
          simp [count_late, List.filter_cons, is_late_frame]
      | late ls =>
          have hn := frame_misses_late hf
          rw [extendScope, pushFrame, resolve_lifetime_ref_aux, hn]
          rw [ih (d + 1) tail hrest hbrest]
          have : d + 1 + count_late fs = d + count_late (Frame.late ls :: fs) := by
            simp [count_late, List.filter_cons, is_late_frame]
            omega
          rw [this]
      | block e' =>
          have := hb (Frame.block e') (List.mem_cons_self _ _)
          simp [is_block_frame] at this

/-- A bound-resolution walk that reaches a Block frame behind any segment
of non-matching frames can only end unresolved or with a free region. -/
theorem resolve_aux_block_free (l : Lifetime) :
    ∀ (fs : List Frame) (d : Nat) (e : CodeExtent) (tail : ScopeChain) (r : DefRegion),
      (∀ f ∈ fs, frame_misses l f = true) →
      resolve_lifetime_ref_aux d l (extendScope fs (.BlockScope e tail)) = some r →
      ∃ e' dd, r = DefRegion.DefFreeRegion e' dd := by
  intro fs
  induction fs with
  | nil =>
      intro d e tail r _ h
      rw [extendScope, resolve_lifetime_ref_aux] at h
      exact resolve_free_is_free l tail e r h
  | cons f fs ih =>
      intro d e tail r hm h
      have hf := hm f (List.mem_cons_self _ _)
      have hrest : ∀ g ∈ fs, frame_misses l g = true :=
        fun g hg => hm g (List.mem_cons_of_mem _ hg)
      cases f with
      | early sp ls =>
          have hn := frame_misses_early hf
          rw [extendScope, pushFrame, resolve_lifetime_ref_aux, hn] at h
          exact ih d e tail r hrest h
      | late ls =>
          have hn := frame_misses_late hf
          rw [extendScope, pushFrame, resolve_lifetime_ref_aux, hn] at h
          exact ih (d + 1) e tail r hrest h
      | block e' =>
          rw [extendScope, pushFrame, resolve_lifetime_ref_aux] at h
          exact resolve_free_is_free l _ e' r h

/-- search_lifetimes finds the *first* declaration with the name: the
returned index points at a declaration with the reference's name and the
declaration's id, and every earlier position has a different name. -/
theorem search_lifetimes_first (l : Lifetime) :
    ∀ (lifetimes : List LifetimeDef) (i : Nat) (d : NodeId),
      search_lifetimes lifetimes l = some (i, d) →
      (∃ ld, lifetimes[i]? = some ld ∧ ld.lifetime.name = l.name ∧ ld.lifetime.id = d) ∧
      ∀ j, j < i → ∀ ld, lifetimes[j]? = some ld → ld.lifetime.name ≠ l.name := by
  intro lifetimes
  induction lifetimes with
  | nil => intro i d h; rw [search_lifetimes] at h; exact absurd h (by simp)
  | cons hd rest ih =>
      intro i d h
      rw [search_lifetimes] at h
      by_cases hname : hd.lifetime.name = l.name
      · rw [if_pos hname] at h
        simp only [Option.some.injEq, Prod.mk.injEq] at h
        obtain ⟨hi, hd'⟩ := h
        subst hi; subst hd'
        refine ⟨⟨hd, by simp, hname, rfl⟩, ?_⟩
        intro j hj; omega
      · rw [if_neg hname] at h
        cases hs : search_lifetimes rest l with
        | none => rw [hs] at h; exact absurd h (by simp)
        | some p =>
            rw [hs] at h
            simp only [Option.map_some', Option.some.injEq, Prod.mk.injEq] at h
            obtain ⟨hi, hdp⟩ := h
            subst hi; subst hdp
            obtain ⟨⟨ld, hld, hldn, hldi⟩, hprev⟩ := ih p.1 p.2 (by rw [hs])
            refine ⟨⟨ld, by simpa using hld, hldn, hldi⟩, ?_⟩
            intro j hj ld' hld'
            cases j with
            | zero =>
                simp only [List.getElem?_cons_zero, Option.some.injEq] at hld'
                rw [← hld']
                exact hname
            | succ j' =>
                rw [List.getElem?_cons_succ] at hld'
                exact hprev j' (by omega) ld' hld'

/-- A match in the innermost Early frame resolves to an early-bound region
carrying the search index. -/
theorem resolve_early_of_search (space : ParamSpace) (lifetimes : List LifetimeDef)
    (s : ScopeChain) (l : Lifetime) (i : Nat) (d : NodeId)
    (h : search_lifetimes lifetimes l = some (i, d)) :
    resolve_lifetime_ref l (.EarlyScope space lifetimes s) =
      some (.DefEarlyBoundRegion space i d) := by
  rw [resolve_lifetime_ref, resolve_lifetime_ref_aux, h]

/-! ## Lemmas about the partitioner's totality -/

/-- Whether a where-predicate is an equality-predicate. -/
def is_eq_predicate : WherePredicate → Bool
  | .bound_predicate _ => false
  | .eq_predicate _ => true

/-- The where-clause scan succeeds exactly when no equality-predicate
occurs: the `unimplemented!()` arm is the only failure. -/
theorem scan_predicates_isSome :
    ∀ (ps : List WherePredicate) (p : List Name × List Name),
      (scan_predicates p ps).isSome =
        ps.all (fun q => !(is_eq_predicate q)) := by
  intro ps
  induction ps with
  | nil => intro p; rfl
  | cons q rest ih =>
      intro p
      cases q with
      | bound_predicate bounds =>
          rw [scan_predicates, ih]
          simp [is_eq_predicate]
      | eq_predicate refs =>
          rw [scan_predicates]
          simp [is_eq_predicate]

/-! ## Counting machinery for the declaration validator -/

/-- Whether a diagnostic is a duplicate-name report. -/
def is_dup_err : LifetimeError → Bool
  | .DuplicateLifetimeName _ => true
  | _ => false

/-- Whether a diagnostic is a reserved-name report. -/
def is_reserved_err : LifetimeError → Bool
  | .ReservedLifetimeName _ => true
  | _ => false

/-- Number of duplicate-name reports in a diagnostic list. -/
def countDup (errs : List LifetimeError) : Nat :=
  (errs.filter is_dup_err).length

/-- Number of reserved-name reports in a diagnostic list. -/
def countReserved (errs : List LifetimeError) : Nat :=
  (errs.filter is_reserved_err).length

/-- Number of unordered pairs of equal elements in a name list. -/
def countEqPairs : List Name → Nat
  | [] => 0
  | n :: rest => (rest.filter (fun m => m = n)).length + countEqPairs rest

theorem countDup_append (a b : List LifetimeError) :
    countDup (a ++ b) = countDup a + countDup b := by
  simp [countDup, List.filter_append]

theorem countReserved_append (a b : List LifetimeError) :
    countReserved (a ++ b) = countReserved a + countReserved b := by
  simp [countReserved, List.filter_append]

theorem countDup_reserved_scan (all : List LifetimeDef) :
    countDup (reserved_scan all) = 0 := by
  rw [reserved_scan]
  induction all.filter (fun l => l.lifetime.name = static_lifetime_name) with
  | nil => rfl
  | cons a t _ => simp [countDup, is_dup_err]

theorem countReserved_reserved_scan (all : List LifetimeDef) :
    countReserved (reserved_scan all) =
      (all.filter (fun l => l.lifetime.name = static_lifetime_name)).length := by
  rw [reserved_scan]
  induction all.filter (fun l => l.lifetime.name = static_lifetime_name) with
  | nil => rfl
  | cons a t ih =>
      simp only [countReserved] at ih
      simp only [List.map_cons, countReserved, List.filter_cons, is_reserved_err,
        List.length_cons, if_pos]
      rw [ih]

theorem countDup_dup_scan (li : LifetimeDef) (rest : List LifetimeDef) :
    countDup (dup_scan li rest) =
      (rest.filter (fun l => l.lifetime.name = li.lifetime.name)).length := by
  rw [dup_scan]
  induction rest.filter (fun l => l.lifetime.name = li.lifetime.name) with
  | nil => rfl
  | cons a t ih => simpa [countDup, is_dup_err, List.filter_cons] using ih

theorem countReserved_dup_scan (li : LifetimeDef) (rest : List LifetimeDef) :
    countReserved (dup_scan li rest) = 0 := by
  rw [dup_scan]
  induction rest.filter (fun l => l.lifetime.name = li.lifetime.name) with
  | nil => rfl
  | cons a t _ => simp [countReserved, is_reserved_err]

theorem length_filter_name_map (rest : List LifetimeDef) (n : Name) :
    ((rest.map (fun l => l.lifetime.name)).filter (fun m => m = n)).length =
      (rest.filter (fun l => l.lifetime.name = n)).length := by
  induction rest with
  | nil => rfl
  | cons a t ih =>
      by_cases hn : a.lifetime.name = n <;>
        simp [List.filter_cons, hn, ih]

/-- Running the validator over a declaration set with no outlives-bounds
always succeeds, leaves the result table unchanged, and adds exactly one
duplicate report per unordered pair of same-named declarations and one
reserved report per static-named declaration per outer iteration. -/
theorem check_aux_counts (scope : ScopeChain) (all : List LifetimeDef) :
    ∀ (rest : List LifetimeDef) (st : St), (∀ l ∈ rest, l.bounds = []) →
      ∃ st', check_lifetime_defs_aux scope all rest st = some st' ∧
        st'.named_region_map = st.named_region_map ∧
        countDup st'.errs =
          countDup st.errs + countEqPairs (rest.map (fun l => l.lifetime.name)) ∧
        countReserved st'.errs =
          countReserved st.errs +
            rest.length *
              (all.filter (fun l => l.lifetime.name = static_lifetime_name)).length := by
  intro rest
  induction rest with
  | nil =>
      intro st _
      exact ⟨st, rfl, rfl, by simp [countEqPairs], by simp⟩
  | cons li r ih =>
      intro st hb
      have hbounds : li.bounds = [] := hb li (List.mem_cons_self _ _)
      set st2 : St :=
        { st with errs := (st.errs ++ reserved_scan all) ++ dup_scan li r } with hst2
      obtain ⟨st', heq, hmap, hdup, hres⟩ :=
        ih st2 (fun l hl => hb l (List.mem_cons_of_mem _ hl))
      refine ⟨st', ?_, ?_, ?_, ?_⟩
      · rw [check_lifetime_defs_aux, hbounds]
        rw [resolve_bounds]
        exact heq
      · rw [hmap]
      · rw [hdup, hst2]
        simp only [countDup_append, countDup_reserved_scan, countDup_dup_scan]
        rw [List.map_cons, countEqPairs, length_filter_name_map]
        omega
      · rw [hres, hst2]
        simp only [countReserved_append, countReserved_reserved_scan,
          countReserved_dup_scan]
        simp [List.length_cons]
        ring

/-- Resolving one outlives-bound never adds a duplicate-name report: it
either inserts into the table (diagnostics untouched) or appends one
UndeclaredLifetime report. -/
theorem resolve_and_insert_countDup (scope : ScopeChain) (b : Lifetime) :
    ∀ (st st' : St), resolve_and_insert scope b st = some st' →
      countDup st'.errs = countDup st.errs := by
  intro st st' h
  rw [resolve_and_insert] at h
  cases hr : resolve_lifetime_ref b scope with
  | some d =>
      simp only [hr, insert_lifetime] at h
      split at h
      · exact absurd h (by simp)
      · have hst := Option.some.inj h
        rw [← hst]
  | none =>
      simp only [hr] at h
      have hst := Option.some.inj h
      rw [← hst, push_err, countDup_append]
      simp [countDup, is_dup_err]

/-- Resolving a declaration's outlives-bound list never adds a
duplicate-name report. -/
theorem resolve_bounds_countDup (scope : ScopeChain) :
    ∀ (bounds : List Lifetime) (st st' : St),
      resolve_bounds scope bounds st = some st' →
      countDup st'.errs = countDup st.errs := by
  intro bounds
  induction bounds with
  | nil =>
      intro st st' h
      rw [resolve_bounds] at h
      rw [← Option.some.inj h]
  | cons b bs ih =>
      intro st st' h
      rw [resolve_bounds] at h
      cases hb : resolve_and_insert scope b st with
      | none => rw [hb] at h; exact absurd h (by simp)
      | some st1 =>
          rw [hb] at h
          rw [ih st1 st' h, resolve_and_insert_countDup scope b st st1 hb]

/-- Resolving one outlives-bound succeeds whenever the bound reference
carries a real node id (the placeholder id is the only fatal path). -/
theorem resolve_and_insert_isSome (scope : ScopeChain) (b : Lifetime)
    (st : St) (hid : b.id ≠ DUMMY_NODE_ID) :
    ∃ st', resolve_and_insert scope b st = some st' := by
  rw [resolve_and_insert]
  cases hr : resolve_lifetime_ref b scope with
  | some d =>
      simp only [insert_lifetime, if_neg hid]
      exact ⟨_, rfl⟩
  | none => exact ⟨_, rfl⟩

/-- Resolving an outlives-bound list succeeds whenever every bound
reference carries a real node id. -/
theorem resolve_bounds_isSome (scope : ScopeChain) :
    ∀ (bounds : List Lifetime) (st : St),
      (∀ b ∈ bounds, b.id ≠ DUMMY_NODE_ID) →
      ∃ st', resolve_bounds scope bounds st = some st' := by
  intro bounds
  induction bounds with
  | nil => intro st _; exact ⟨st, rfl⟩
  | cons b bs ih =>
      intro st hid
      obtain ⟨st1, hb⟩ :=
        resolve_and_insert_isSome scope b st (hid b (List.mem_cons_self _ _))
      obtain ⟨st', hbs⟩ := ih st1 (fun b' hb' => hid b' (List.mem_cons_of_mem _ hb'))
      refine ⟨st', ?_⟩
      rw [resolve_bounds, hb]
      exact hbs

/-- Whenever the validator completes over any declaration set — bounds or
not — it adds exactly one duplicate report per unordered pair of
same-named declarations: the reserved scans and bound resolutions
interleaved with the duplicate scans contribute no duplicate reports. -/
theorem check_aux_countDup (scope : ScopeChain) (all : List LifetimeDef) :
    ∀ (rest : List LifetimeDef) (st st' : St),
      check_lifetime_defs_aux scope all rest st = some st' →
      countDup st'.errs = countDup st.errs +
        countEqPairs (rest.map (fun l => l.lifetime.name)) := by
  intro rest
  induction rest with
  | nil =>
      intro st st' h
      rw [check_lifetime_defs_aux] at h
      rw [← Option.some.inj h]
      simp [countEqPairs]
  | cons li r ih =>
      intro st st' h
      simp only [check_lifetime_defs_aux] at h
      split at h
      · exact absurd h (by simp)
      · rename_i st3 hb
        have h3 := resolve_bounds_countDup scope li.bounds _ st3 hb
        have h4 := ih st3 st' h
        rw [h4, h3]
        simp only [countDup_append, countDup_reserved_scan, countDup_dup_scan]
        rw [List.map_cons, countEqPairs, length_filter_name_map]
        omega

/-- The validator completes over every declaration set whose outlives-bound
references carry real node ids; only the upstream placeholder-id invariant
violation can abort it. -/
theorem check_aux_total (scope : ScopeChain) (all : List LifetimeDef) :
    ∀ (rest : List LifetimeDef) (st : St),
      (∀ l ∈ rest, ∀ b ∈ l.bounds, b.id ≠ DUMMY_NODE_ID) →
      ∃ st', check_lifetime_defs_aux scope all rest st = some st' := by
  intro rest
  induction rest with
  | nil => intro st _; exact ⟨st, rfl⟩
  | cons li r ih =>
      intro st hid
      obtain ⟨st3, hb⟩ := resolve_bounds_isSome scope li.bounds
        { st with errs := (st.errs ++ reserved_scan all) ++ dup_scan li r }
        (hid li (List.mem_cons_self _ _))
      obtain ⟨st', h'⟩ := ih st3 (fun l hl => hid l (List.mem_cons_of_mem _ hl))
      refine ⟨st', ?_⟩
      simp only [check_lifetime_defs_aux]
      rw [hb]
      exact h'

/-- 2·(number of equal pairs among k copies of one name) = k(k−1). -/
theorem countEqPairs_replicate (n : Name) :
    ∀ (k : Nat), 2 * countEqPairs (List.replicate k n) = k * (k - 1) := by
  intro k
  induction k with
  | zero => rfl
  | succ k ih =>
      rw [List.replicate_succ, countEqPairs]
      have hf : (List.replicate k n).filter (fun m => m = n) = List.replicate k n := by
        apply List.filter_eq_self.mpr
        intro a ha
        simp [List.eq_of_mem_replicate ha]
      rw [hf, List.length_replicate, Nat.mul_add, ih, Nat.succ_sub_one]
      cases k with
      | zero => rfl
      | succ k' =>
          rw [Nat.succ_sub_one]
          ring

/-! ## Programs with no lifetime data at all -/

/-- A type carrying no lifetime occurrence. -/
def ty_no_lifetimes : Ty → Bool
  | .ty_unit => true
  | .ty_rptr _ _ => false

def tys_no_lifetimes : List Ty → Bool
  | [] => true
  | t :: ts => ty_no_lifetimes t && tys_no_lifetimes ts

/-- A type-parameter bound declaring and referencing no lifetimes. -/
def bound_no_lifetimes : TyParamBound → Bool
  | .region_bound _ => false
  | .trait_bound bls refs => bls.isEmpty && refs.isEmpty

def bounds_no_lifetimes : List TyParamBound → Bool
  | [] => true
  | b :: bs => bound_no_lifetimes b && bounds_no_lifetimes bs

/-- A where-predicate free of lifetime data.  An equality-predicate never
qualifies: even an empty one aborts the partitioner. -/
def predicate_no_lifetimes : WherePredicate → Bool
  | .bound_predicate bs => bounds_no_lifetimes bs
  | .eq_predicate _ => false

def predicates_no_lifetimes : List WherePredicate → Bool
  | [] => true
  | p :: ps => predicate_no_lifetimes p && predicates_no_lifetimes ps

def ty_params_no_lifetimes : List TyParam → Bool
  | [] => true
  | tp :: tps => bounds_no_lifetimes tp.bounds && ty_params_no_lifetimes tps

/-- A generics clause declaring no lifetimes, referencing none in its
bounds, and containing no equality-predicate. -/
def generics_no_lifetimes (g : Generics) : Bool :=
  g.lifetimes.isEmpty && ty_params_no_lifetimes g.ty_params &&
    predicates_no_lifetimes g.predicates

mutual
/-- An item declaring and referencing no lifetimes anywhere (and whose
where-clauses contain no equality-predicate). -/
def item_no_lifetimes : Item → Bool
  | .item_fn g ins out b =>
      generics_no_lifetimes g && tys_no_lifetimes ins && ty_no_lifetimes out &&
        block_no_lifetimes b
  | .item_mod its => items_no_lifetimes its
  | .item_static t => ty_no_lifetimes t
  | .item_const t => ty_no_lifetimes t
  | .item_ty g t => generics_no_lifetimes g && ty_no_lifetimes t
  | .item_enum g ts => generics_no_lifetimes g && tys_no_lifetimes ts
  | .item_struct g ts => generics_no_lifetimes g && tys_no_lifetimes ts
  | .item_trait g ts => generics_no_lifetimes g && tys_no_lifetimes ts
  | .item_impl g t ts =>
      generics_no_lifetimes g && ty_no_lifetimes t && tys_no_lifetimes ts

def items_no_lifetimes : List Item → Bool
  | [] => true
  | i :: is' => item_no_lifetimes i && items_no_lifetimes is'

def block_no_lifetimes : Block → Bool
  | .mk _ stmts => stmts_no_lifetimes stmts

def stmts_no_lifetimes : List Stmt → Bool
  | [] => true
  | .stmt_item i :: r => item_no_lifetimes i && stmts_no_lifetimes r
  | .stmt_ty t :: r => ty_no_lifetimes t && stmts_no_lifetimes r
end

theorem visit_ty_nl (scope : ScopeChain) (st : St) :
    ∀ (t : Ty), ty_no_lifetimes t = true → visit_ty scope t st = some st := by
  intro t h
  cases t with
  | ty_unit => rfl
  | ty_rptr l inner => exact absurd h (by simp [ty_no_lifetimes])

theorem visit_tys_nl (scope : ScopeChain) :
    ∀ (ts : List Ty) (st : St), tys_no_lifetimes ts = true →
      visit_tys scope ts st = some st := by
  intro ts
  induction ts with
  | nil => intro st _; rfl
  | cons t ts ih =>
      intro st h
      rw [tys_no_lifetimes, Bool.and_eq_true] at h
      rw [visit_tys, visit_ty_nl scope st t h.1]
      exact ih st h.2

theorem visit_bound_nl (scope : ScopeChain) (st : St) :
    ∀ (b : TyParamBound), bound_no_lifetimes b = true →
      visit_ty_param_bound scope b st = some st := by
  intro b h
  cases b with
  | region_bound l => exact absurd h (by simp [bound_no_lifetimes])
  | trait_bound bls refs =>
      rw [bound_no_lifetimes, Bool.and_eq_true] at h
      obtain ⟨h1, h2⟩ := h
      rw [List.isEmpty_iff] at h1 h2
      subst h1; subst h2
      rfl

theorem visit_bounds_nl (scope : ScopeChain) :
    ∀ (bs : List TyParamBound) (st : St), bounds_no_lifetimes bs = true →
      visit_ty_param_bounds scope bs st = some st := by
  intro bs
  induction bs with
  | nil => intro st _; rfl
  | cons b bs ih =>
      intro st h
      rw [bounds_no_lifetimes, Bool.and_eq_true] at h
      rw [visit_ty_param_bounds, visit_bound_nl scope st b h.1]
      exact ih st h.2

theorem visit_predicates_nl (scope : ScopeChain) :
    ∀ (ps : List WherePredicate) (st : St), predicates_no_lifetimes ps = true →
      visit_predicates scope ps st = some st := by
  intro ps
  induction ps with
  | nil => intro st _; rfl
  | cons p ps ih =>
      intro st h
      rw [predicates_no_lifetimes, Bool.and_eq_true] at h
      cases p with
      | bound_predicate bs =>
          rw [visit_predicates, visit_bounds_nl scope bs st h.1]
          exact ih st h.2
      | eq_predicate refs =>
          exact absurd h.1 (by simp [predicate_no_lifetimes])

theorem visit_ty_params_nl (scope : ScopeChain) :
    ∀ (tps : List TyParam) (st : St), ty_params_no_lifetimes tps = true →
      visit_ty_params scope tps st = some st := by
  intro tps
  induction tps with
  | nil => intro st _; rfl
  | cons tp tps ih =>
      intro st h
      rw [ty_params_no_lifetimes, Bool.and_eq_true] at h
      rw [visit_ty_params, visit_bounds_nl scope tp.bounds st h.1]
      exact ih st h.2

theorem visit_generics_nl (scope : ScopeChain) (g : Generics) (st : St)
    (h : generics_no_lifetimes g = true) : visit_generics scope g st = some st := by
  rw [generics_no_lifetimes, Bool.and_eq_true, Bool.and_eq_true] at h
  rw [visit_generics, visit_ty_params_nl scope g.ty_params st h.1.2]
  exact visit_predicates_nl scope g.predicates st h.2

theorem collected_refs_nl :
    ∀ (b : TyParamBound), bound_no_lifetimes b = true → collected_refs b = [] := by
  intro b h
  cases b with
  | region_bound l => exact absurd h (by simp [bound_no_lifetimes])
  | trait_bound bls refs =>
      rw [bound_no_lifetimes, Bool.and_eq_true] at h
      obtain ⟨h1, h2⟩ := h
      rw [List.isEmpty_iff] at h2
      rw [collected_refs, h2]
      rfl

theorem flatten_collected_nl :
    ∀ (bs : List TyParamBound), bounds_no_lifetimes bs = true →
      (bs.map collected_refs).flatten = [] := by
  intro bs
  induction bs with
  | nil => intro _; rfl
  | cons b bs ih =>
      intro h
      rw [bounds_no_lifetimes, Bool.and_eq_true] at h
      rw [List.map_cons, List.flatten_cons, collected_refs_nl b h.1, ih h.2]
      rfl

theorem ty_params_fold_nl :
    ∀ (tps : List TyParam) (p : List Name × List Name),
      ty_params_no_lifetimes tps = true →
      tps.foldl (fun p tp => shuffle_all p (tp.bounds.map collected_refs).flatten) p
        = p := by
  intro tps
  induction tps with
  | nil => intro p _; rfl
  | cons tp tps ih =>
      intro p h
      rw [ty_params_no_lifetimes, Bool.and_eq_true] at h
      rw [List.foldl_cons, flatten_collected_nl tp.bounds h.1]
      exact ih p h.2

theorem scan_predicates_nl :
    ∀ (ps : List WherePredicate) (p : List Name × List Name),
      predicates_no_lifetimes ps = true → scan_predicates p ps = some p := by
  intro ps
  induction ps with
  | nil => intro p _; rfl
  | cons q ps ih =>
      intro p h
      rw [predicates_no_lifetimes, Bool.and_eq_true] at h
      cases q with
      | bound_predicate bs =>
          rw [scan_predicates, flatten_collected_nl bs h.1]
          exact ih p h.2
      | eq_predicate refs =>
          exact absurd h.1 (by simp [predicate_no_lifetimes])

theorem early_bound_lifetime_names_nl (g : Generics)
    (h : generics_no_lifetimes g = true) :
    early_bound_lifetime_names g = some [] := by
  have h' := h
  rw [generics_no_lifetimes, Bool.and_eq_true, Bool.and_eq_true] at h'
  have hl : g.lifetimes = [] := List.isEmpty_iff.mp h'.1.1
  rw [early_bound_lifetime_names, hl]
  simp only [List.map_nil]
  rw [ty_params_fold_nl g.ty_params ([], []) h'.1.2,
    scan_predicates_nl g.predicates ([], []) h'.2]
  rfl

theorem early_late_scope_nl (sp : ParamSpace) (g : Generics) (parent : ScopeChain)
    (h : generics_no_lifetimes g = true) :
    early_late_scope sp g parent =
      some (.LateScope [] (.EarlyScope sp [] parent)) := by
  have h' := h
  rw [generics_no_lifetimes, Bool.and_eq_true, Bool.and_eq_true] at h'
  have hl : g.lifetimes = [] := List.isEmpty_iff.mp h'.1.1
  rw [early_late_scope, early_bound_lifetime_names_nl g h]
  rw [hl]
  rfl

theorem generics_nl_lifetimes_nil (g : Generics)
    (h : generics_no_lifetimes g = true) : g.lifetimes = [] := by
  rw [generics_no_lifetimes, Bool.and_eq_true, Bool.and_eq_true] at h
  exact List.isEmpty_iff.mp h.1.1

mutual
/-- Walking any item that declares and references no lifetimes leaves the
state untouched, from any scope. -/
theorem visit_item_nl :
    ∀ (it : Item), item_no_lifetimes it = true →
      ∀ (scope : ScopeChain) (st : St), visit_item scope it st = some st
  | .item_fn g ins out b, h, scope, st => by
      simp only [item_no_lifetimes, Bool.and_eq_true] at h
      obtain ⟨⟨⟨hg, hins⟩, hout⟩, hb⟩ := h
      have hl := generics_nl_lifetimes_nil g hg
      simp only [visit_item, early_late_scope_nl .FnSpace g .RootScope hg, hl,
        check_lifetime_defs, check_lifetime_defs_aux, visit_generics_nl, hg,
        visit_tys_nl, hins, visit_ty_nl, hout]
      exact visit_block_nl b hb _ st
  | .item_mod its, h, scope, st => by
      rw [item_no_lifetimes] at h
      rw [visit_item]
      exact visit_items_nl its h .RootScope st
  | .item_static t, h, scope, st => by
      rw [item_no_lifetimes] at h
      rw [visit_item]
      exact visit_ty_nl .RootScope st t h
  | .item_const t, h, scope, st => by
      rw [item_no_lifetimes] at h
      rw [visit_item]
      exact visit_ty_nl .RootScope st t h
  | .item_ty g t, h, scope, st => by
      simp only [item_no_lifetimes, Bool.and_eq_true] at h
      obtain ⟨hg, ht⟩ := h
      have hl := generics_nl_lifetimes_nil g hg
      simp only [visit_item, hl, check_lifetime_defs, check_lifetime_defs_aux,
        visit_generics_nl, hg, visit_ty_nl, ht]
  | .item_enum g ts, h, scope, st => by
      simp only [item_no_lifetimes, Bool.and_eq_true] at h
      obtain ⟨hg, hts⟩ := h
      have hl := generics_nl_lifetimes_nil g hg
      simp only [visit_item, hl, check_lifetime_defs, check_lifetime_defs_aux,
        visit_generics_nl, hg, visit_tys_nl, hts]
  | .item_struct g ts, h, scope, st => by
      simp only [item_no_lifetimes, Bool.and_eq_true] at h
      obtain ⟨hg, hts⟩ := h
      have hl := generics_nl_lifetimes_nil g hg
      simp only [visit_item, hl, check_lifetime_defs, check_lifetime_defs_aux,
        visit_generics_nl, hg, visit_tys_nl, hts]
  | .item_trait g ts, h, scope, st => by
      simp only [item_no_lifetimes, Bool.and_eq_true] at h
      obtain ⟨hg, hts⟩ := h
      have hl := generics_nl_lifetimes_nil g hg
      simp only [visit_item, hl, check_lifetime_defs, check_lifetime_defs_aux,
        visit_generics_nl, hg, visit_tys_nl, hts]
  | .item_impl g t ts, h, scope, st => by
      simp only [item_no_lifetimes, Bool.and_eq_true] at h
      obtain ⟨⟨hg, ht⟩, hts⟩ := h
      have hl := generics_nl_lifetimes_nil g hg
      simp only [visit_item, early_late_scope_nl .TypeSpace g scope hg, hl,
        check_lifetime_defs, check_lifetime_defs_aux, visit_generics_nl, hg,
        visit_ty_nl, ht, visit_tys_nl, hts]

theorem visit_items_nl :
    ∀ (its : List Item), items_no_lifetimes its = true →
      ∀ (scope : ScopeChain) (st : St), visit_items scope its st = some st
  | [], _, scope, st => by rw [visit_items]
  | i :: is', h, scope, st => by
      rw [items_no_lifetimes, Bool.and_eq_true] at h
      rw [visit_items, visit_item_nl i h.1 scope st]
      exact visit_items_nl is' h.2 scope st

theorem visit_block_nl :
    ∀ (b : Block), block_no_lifetimes b = true →
      ∀ (scope : ScopeChain) (st : St), visit_block scope b st = some st
  | .mk id stmts, h, scope, st => by
      rw [block_no_lifetimes] at h
      rw [visit_block]
      exact visit_stmts_nl stmts h _ st

theorem visit_stmts_nl :
    ∀ (stmts : List Stmt), stmts_no_lifetimes stmts = true →
      ∀ (scope : ScopeChain) (st : St), visit_stmts scope stmts st = some st
  | [], _, scope, st => by rw [visit_stmts]
  | .stmt_item i :: r, h, scope, st => by
      rw [stmts_no_lifetimes, Bool.and_eq_true] at h
      rw [visit_stmts, visit_item_nl i h.1 scope st]
      exact visit_stmts_nl r h.2 scope st
  | .stmt_ty t :: r, h, scope, st => by
      rw [stmts_no_lifetimes, Bool.and_eq_true] at h
      rw [visit_stmts, visit_ty_nl scope st t h.1]
      exact visit_stmts_nl r h.2 scope st
end

/-! ## Concrete example inputs -/

/-- Declaration of lifetime 'a (interned name 10), declaration node id 1. -/
def def_a : LifetimeDef := ⟨⟨1, 10⟩, []⟩

/-- Declaration of lifetime 'b (interned name 20), declaration node id 2. -/
def def_b : LifetimeDef := ⟨⟨2, 20⟩, []⟩

/-- The generics clause of fn foo<'a, 'b, T: Trait<'b> + Trait2<'a>>: two
trait bounds on T whose paths reference 'b (node 3) then 'a (node 4). -/
def g_ab : Generics :=
  ⟨[def_a, def_b],
   [⟨[.trait_bound [] [⟨3, 20⟩], .trait_bound [] [⟨4, 10⟩]]⟩],
   []⟩

/-- fn foo<'a, 'b, T: Trait<'b> + Trait2<'a>>(x: &'b ()) {} — the &'b
reference is node 5, the body block node 6. -/
def crate_ab : List Item :=
  [.item_fn g_ab [.ty_rptr ⟨5, 20⟩ .ty_unit] .ty_unit (.mk 6 [])]

/-- A generics clause whose where-clause holds one equality-predicate. -/
def g_eq : Generics := ⟨[], [], [.eq_predicate []]⟩

/-- A fn item whose where-clause holds an equality-predicate. -/
def crate_eq : List Item := [.item_fn g_eq [] .ty_unit (.mk 7 [])]

/-- A program with no declarations whose only lifetime reference (node 3)
uses the reserved static name. -/
def crate_static_ref : List Item := [.item_static (.ty_rptr ⟨3, 0⟩ .ty_unit)]

/-- A program with no declarations whose only lifetime reference (node 3)
uses an undeclared name. -/
def crate_undeclared : List Item := [.item_static (.ty_rptr ⟨3, 99⟩ .ty_unit)]

/-- Three same-named declarations <'a, 'a, 'a> with node ids 1, 2, 3. -/
def triple_a : List LifetimeDef := [⟨⟨1, 10⟩, []⟩, ⟨⟨2, 10⟩, []⟩, ⟨⟨3, 10⟩, []⟩]

/-- The declaration set <'a, 'static>: one ordinary declaration and one
using the reserved static name (node 2). -/
def pair_static : List LifetimeDef := [⟨⟨1, 10⟩, []⟩, ⟨⟨2, 0⟩, []⟩]

/-- The declaration set <'a, 'a: 'b>: two same-named declarations, the
second carrying an outlives-bound referencing 'b (node 4, name 30). -/
def pair_bound : List LifetimeDef := [⟨⟨1, 10⟩, []⟩, ⟨⟨2, 10⟩, [⟨4, 30⟩]⟩]

/-- An impl whose self type references 'a (node 5). -/
def impl_ref_a : Item := .item_impl ⟨[], [], []⟩ (.ty_rptr ⟨5, 10⟩ .ty_unit) []

/-- The item kinds whose visit discards the enclosing scope chain (every
kind except impl, whose visit_early_late extends the current scope). -/
def restart_kind : Item → Bool
  | .item_impl _ _ _ => false
  | _ => true

/-! ## Claim theorems -/

/-- C1, counterexample: a fn item whose where-clause holds an
equality-predicate makes the walk abort mid-traversal (the partitioner hits
unimplemented!()): krate returns the escaped-panic outcome, refuting "the
walk always completes over the entire input" and "a generics clause whose
where-clause contains an equality-predicate is processed by the early/late
partitioner without failure". -/
theorem C1_counterexample :
    krate crate_eq = none ∧ early_bound_lifetime_names g_eq = none :=
  ⟨rfl, rfl⟩

/-- C1, amended: the early/late partitioner completes exactly on generics
clauses whose where-clause contains no equality-predicate; an
equality-predicate makes it panic, aborting the traversal mid-walk. -/
theorem C1_theorem (g : Generics) :
    (early_bound_lifetime_names g).isSome =
      g.predicates.all (fun p => !(is_eq_predicate p)) := by
  rw [← scan_predicates_isSome g.predicates
    (g.ty_params.foldl
      (fun p tp => shuffle_all p (tp.bounds.map collected_refs).flatten)
      ([], g.lifetimes.map (fun l => l.lifetime.name)))]
  simp only [early_bound_lifetime_names]
  cases scan_predicates
      (g.ty_params.foldl
        (fun p tp => shuffle_all p (tp.bounds.map collected_refs).flatten)
        ([], g.lifetimes.map (fun l => l.lifetime.name)))
      g.predicates <;> rfl

/-- C2, counterexample: for <'a, 'b, T: Trait<'b> + Trait2<'a>> both
lifetimes are promoted, 'b first (the promotion-order name list is
[20, 10]), yet the reference to 'b (node 5) receives index 1 — its
declaration-order position — not the promotion-order index 0 the claim
predicts. -/
theorem C2_counterexample :
    krate crate_ab =
      some (some [(3, .DefEarlyBoundRegion .FnSpace 1 2),
                  (4, .DefEarlyBoundRegion .FnSpace 0 1),
                  (5, .DefEarlyBoundRegion .FnSpace 1 2)]) ∧
    early_bound_lifetime_names g_ab = some [20, 10] ∧
    DefRegion.DefEarlyBoundRegion .FnSpace 1 2 ≠
      DefRegion.DefEarlyBoundRegion .FnSpace 0 2 :=
  ⟨rfl, rfl, by decide⟩

/-- C2, amended: the early-bound name list is produced in promotion order,
but the early scope built by visit_early_late lists the promoted
declarations in declaration order (the order-preserving partition of the
declaration list), and a reference resolving early receives the search
index in that list — its declaration-order position among the early
lifetimes; for <'a, 'b, T: Trait<'b> + Trait2<'a>>, 'b is promoted first
yet receives index 1 and 'a index 0. -/
theorem C2_theorem :
    (∀ (space : ParamSpace) (lifetimes : List LifetimeDef) (s : ScopeChain)
       (l : Lifetime) (i : Nat) (d : NodeId),
       search_lifetimes lifetimes l = some (i, d) →
       resolve_lifetime_ref l (.EarlyScope space lifetimes s) =
         some (.DefEarlyBoundRegion space i d) ∧
       (∃ ld, lifetimes[i]? = some ld ∧ ld.lifetime.name = l.name ∧
          ld.lifetime.id = d) ∧
       (∀ j, j < i → ∀ ld, lifetimes[j]? = some ld →
          ld.lifetime.name ≠ l.name)) ∧
    early_late_scope .FnSpace g_ab .RootScope =
      some (.LateScope [] (.EarlyScope .FnSpace [def_a, def_b] .RootScope)) ∧
    resolve_lifetime_ref ⟨5, 20⟩
        (.LateScope [] (.EarlyScope .FnSpace [def_a, def_b] .RootScope)) =
      some (.DefEarlyBoundRegion .FnSpace 1 2) := by
  refine ⟨?_, rfl, rfl⟩
  intro space lifetimes s l i d h
  exact ⟨resolve_early_of_search space lifetimes s l i d h,
    (search_lifetimes_first l lifetimes i d h).1,
    (search_lifetimes_first l lifetimes i d h).2⟩

theorem C2_witness :
    resolve_lifetime_ref ⟨5, 20⟩ (.EarlyScope .FnSpace [def_a, def_b] .RootScope) =
      some (.DefEarlyBoundRegion .FnSpace 1 2) ∧
    (∃ ld, [def_a, def_b][1]? = some ld ∧
       ld.lifetime.name = (Lifetime.mk 5 20).name ∧ ld.lifetime.id = 2) ∧
    (∀ j, j < 1 → ∀ ld, [def_a, def_b][j]? = some ld →
       ld.lifetime.name ≠ (Lifetime.mk 5 20).name) :=
  C2_theorem.1 .FnSpace [def_a, def_b] .RootScope ⟨5, 20⟩ 1 2 (by decide)

/-- C3, counterexample: with a reference behind two nested blocks (extents
10 inner, 20 outer) and the name declared in a Late frame outside both, the
recorded extent is 20 — the outermost block crossed — not the innermost
block's extent 10 that the claim predicts. -/
theorem C3_counterexample :
    resolve_lifetime_ref ⟨5, 10⟩
        (.BlockScope 10 (.BlockScope 20 (.LateScope [def_a] .RootScope))) =
      some (.DefFreeRegion 20 1) ∧
    resolve_lifetime_ref ⟨5, 10⟩
        (.BlockScope 10 (.BlockScope 20 (.LateScope [def_a] .RootScope))) ≠
      some (.DefFreeRegion 10 1) :=
  ⟨rfl, by decide⟩

/-- C3, amended: free-region resolution starts from the extent of the block
that triggered it and every further Block frame crossed before the match
overwrites the tracked extent, so the extent recorded in Free(extent, decl)
is that of the *outermost* Block frame between the reference and the
matching frame (the one nearest the match), not the innermost one; the
matching Early/Late frame itself contributes the declaration id. -/
theorem C3_theorem :
    (∀ (e : CodeExtent) (s : ScopeChain) (l : Lifetime),
       resolve_lifetime_ref l (.BlockScope e s) = resolve_free_lifetime_ref e l s) ∧
    (∀ (fs : List Frame) (e : CodeExtent) (tail : ScopeChain) (l : Lifetime),
       (∀ f ∈ fs, frame_misses l f = true) →
       resolve_free_lifetime_ref e l (extendScope fs tail) =
         resolve_free_lifetime_ref (tracked_extent e fs) l tail) ∧
    (∀ (e : CodeExtent) (lifetimes : List LifetimeDef) (tail : ScopeChain)
       (l : Lifetime) (i : Nat) (d : NodeId),
       search_lifetimes lifetimes l = some (i, d) →
       resolve_free_lifetime_ref e l (.LateScope lifetimes tail) =
         some (.DefFreeRegion e d) ∧
       ∀ (sp : ParamSpace),
         resolve_free_lifetime_ref e l (.EarlyScope sp lifetimes tail) =
           some (.DefFreeRegion e d)) := by
  refine ⟨fun e s l => rfl, fun fs e tail l hm => resolve_free_extend l fs e tail hm, ?_⟩
  intro e lifetimes tail l i d h
  constructor
  · rw [resolve_free_lifetime_ref, h]
  · intro sp
    rw [resolve_free_lifetime_ref, h]

theorem C3_witness :
    resolve_free_lifetime_ref 10 ⟨5, 10⟩
        (extendScope [.block 20] (.LateScope [def_a] .RootScope)) =
      resolve_free_lifetime_ref (tracked_extent 10 [.block 20]) ⟨5, 10⟩
        (.LateScope [def_a] .RootScope) ∧
    resolve_free_lifetime_ref 20 ⟨5, 10⟩ (.LateScope [def_a] .RootScope) =
      some (.DefFreeRegion 20 1) :=
  ⟨C3_theorem.2.1 [.block 20] 10 (.LateScope [def_a] .RootScope) ⟨5, 10⟩ (by decide),
   (C3_theorem.2.2 20 [def_a] .RootScope ⟨5, 10⟩ 0 1 (by decide)).1⟩

/-- C4: once a reference's walk crosses a Block frame (the innermost frames
of its nested item all missing the name), the outcome can only be a free
region — never EarlyBound or LateBound; concretely, 'a behind a block
resolves to Free(10, 1) while the same name directly under its Late binder
resolves to LateBound(1, 1). -/
theorem C4_theorem :
    (∀ (fs : List Frame) (e : CodeExtent) (tail : ScopeChain) (l : Lifetime)
       (r : DefRegion),
       (∀ f ∈ fs, frame_misses l f = true) →
       resolve_lifetime_ref l (extendScope fs (.BlockScope e tail)) = some r →
       ∃ e' d, r = DefRegion.DefFreeRegion e' d) ∧
    resolve_lifetime_ref ⟨5, 10⟩ (.BlockScope 10 (.LateScope [def_a] .RootScope)) =
      some (.DefFreeRegion 10 1) ∧
    resolve_lifetime_ref ⟨5, 10⟩ (.LateScope [def_a] .RootScope) =
      some (.DefLateBoundRegion 1 1) := by
  refine ⟨?_, rfl, rfl⟩
  intro fs e tail l r hm h
  exact resolve_aux_block_free l fs 0 e tail r hm h

theorem C4_witness :
    ∃ e' d, DefRegion.DefFreeRegion 10 1 = DefRegion.DefFreeRegion e' d :=
  C4_theorem.1 [] 10 (.LateScope [def_a] .RootScope) ⟨5, 10⟩
    (.DefFreeRegion 10 1) (by decide) (by decide)

/-- C5: fn, mod, static, const, type-alias, enum, struct and trait items
are visited independently of the enclosing scope chain (their walk restarts
from the root), while an impl item's walk does depend on it; a fn item
referencing an enclosing 'a gets an undeclared-lifetime report. -/
theorem C5_theorem :
    (∀ (it : Item), restart_kind it = true →
       ∀ (scope : ScopeChain) (st : St),
         visit_item scope it st = visit_item .RootScope it st) ∧
    visit_item (.LateScope [def_a] .RootScope) impl_ref_a ⟨[], []⟩ ≠
      visit_item .RootScope impl_ref_a ⟨[], []⟩ ∧
    visit_item (.LateScope [def_a] .RootScope)
        (.item_fn ⟨[], [], []⟩ [.ty_rptr ⟨5, 10⟩ .ty_unit] .ty_unit (.mk 6 []))
        ⟨[], []⟩ =
      some ⟨[], [.UndeclaredLifetime 5]⟩ := by
  refine ⟨?_, by decide, by decide⟩
  intro it hr scope st
  cases it with
  | item_fn g ins out b => rfl
  | item_mod its => rfl
  | item_static t => rfl
  | item_const t => rfl
  | item_ty g t => rfl
  | item_enum g ts => rfl
  | item_struct g ts => rfl
  | item_trait g ts => rfl
  | item_impl g t ts => rw [restart_kind] at hr; exact absurd hr (by simp)

theorem C5_witness :
    visit_item (.BlockScope 3 .RootScope) (.item_static .ty_unit) ⟨[], []⟩ =
      visit_item .RootScope (.item_static .ty_unit) ⟨[], []⟩ :=
  C5_theorem.1 (.item_static .ty_unit) (by decide) (.BlockScope 3 .RootScope) ⟨[], []⟩

/-- C6, counterexample: three same-named declarations (k = 3) yield three
DuplicateLifetimeName reports — one per unordered pair, two of them on the
third occurrence — not the k − 1 = 2 reports the claim predicts. -/
theorem C6_counterexample :
    check_lifetime_defs .RootScope triple_a ⟨[], []⟩ =
      some ⟨[], [.DuplicateLifetimeName 2, .DuplicateLifetimeName 3,
                 .DuplicateLifetimeName 3]⟩ ∧
    countDup [LifetimeError.DuplicateLifetimeName 2,
              LifetimeError.DuplicateLifetimeName 3,
              LifetimeError.DuplicateLifetimeName 3] ≠ 3 - 1 :=
  ⟨rfl, by decide⟩

/-- C6, amended: whenever validation completes over a declaration set —
with or without outlives-bounds, whose resolution adds only undeclared
reports, never duplicate ones — it emits one DuplicateLifetimeName report
per unordered pair of same-named occurrences: k(k−1)/2 for k same-named
declarations, not k−1; it completes on every set whose bound references
carry real node ids; and references keep resolving to the first occurrence
(every position before the returned search index has a different name). -/
theorem C6_theorem :
    (∀ (scope : ScopeChain) (st : St) (lifetimes : List LifetimeDef) (st' : St),
       check_lifetime_defs scope lifetimes st = some st' →
       countDup st'.errs = countDup st.errs +
         countEqPairs (lifetimes.map (fun l => l.lifetime.name))) ∧
    (∀ (scope : ScopeChain) (st : St) (lifetimes : List LifetimeDef),
       (∀ l ∈ lifetimes, ∀ b ∈ l.bounds, b.id ≠ DUMMY_NODE_ID) →
       ∃ st', check_lifetime_defs scope lifetimes st = some st') ∧
    (∀ (k : Nat) (n : Name), 2 * countEqPairs (List.replicate k n) = k * (k - 1)) ∧
    (∀ (lifetimes : List LifetimeDef) (l : Lifetime) (i : Nat) (d : NodeId),
       search_lifetimes lifetimes l = some (i, d) →
       ∀ j, j < i → ∀ ld, lifetimes[j]? = some ld → ld.lifetime.name ≠ l.name) := by
  refine ⟨?_, ?_, fun k n => countEqPairs_replicate n k, ?_⟩
  · intro scope st lifetimes st' h
    exact check_aux_countDup scope lifetimes lifetimes st st' h
  · intro scope st lifetimes hid
    exact check_aux_total scope lifetimes lifetimes st hid
  · intro lifetimes l i d h
    exact (search_lifetimes_first l lifetimes i d h).2

theorem C6_witness :
    countDup [LifetimeError.DuplicateLifetimeName 2,
              LifetimeError.UndeclaredLifetime 4] =
      countDup [] + countEqPairs (pair_bound.map (fun l => l.lifetime.name)) ∧
    (∃ st', check_lifetime_defs .RootScope pair_bound ⟨[], []⟩ = some st') :=
  ⟨C6_theorem.1 .RootScope ⟨[], []⟩ pair_bound
      ⟨[], [.DuplicateLifetimeName 2, .UndeclaredLifetime 4]⟩ (by decide),
   C6_theorem.2.1 .RootScope ⟨[], []⟩ pair_bound (by decide)⟩

/-- C7: evaluating the validator on <'a, 'static> — the reserved-name scan
runs over the whole set once per outer iteration, so the single
static-named declaration (node 2) is reported twice, not once as the claim
(and the spec) state. -/
theorem C7_theorem :
    check_lifetime_defs .RootScope pair_static ⟨[], []⟩ =
      some ⟨[], [.ReservedLifetimeName 2, .ReservedLifetimeName 2]⟩ ∧
    countReserved [LifetimeError.ReservedLifetimeName 2,
                   LifetimeError.ReservedLifetimeName 2] ≠ 1 :=
  ⟨rfl, by decide⟩

/-- C8: across a segment of frames that all miss the name and contain no
block, Early frames never advance the late-scope counter and each Late
frame advances it by one, so a match in the Late frame behind the segment
resolves to LateBound with depth (number of Late frames crossed) + 1 — in
particular depth 1 when the match is in the innermost Late frame. -/
theorem C8_theorem :
    ∀ (fs : List Frame) (defs : List LifetimeDef) (s : ScopeChain) (l : Lifetime)
      (i : Nat) (d : NodeId),
      (∀ f ∈ fs, frame_misses l f = true) →
      (∀ f ∈ fs, is_block_frame f = false) →
      search_lifetimes defs l = some (i, d) →
      resolve_lifetime_ref l (extendScope fs (.LateScope defs s)) =
        some (.DefLateBoundRegion (count_late fs + 1) d) := by
  intro fs defs s l i d hm hb hs
  rw [resolve_lifetime_ref, resolve_aux_extend l fs 0 (.LateScope defs s) hm hb]
  rw [resolve_lifetime_ref_aux, hs]
  simp

theorem C8_witness :
    resolve_lifetime_ref ⟨5, 10⟩
        (extendScope [.early .FnSpace [def_b], .late [def_b]]
          (.LateScope [def_a] .RootScope)) =
      some (.DefLateBoundRegion
        (count_late [.early .FnSpace [def_b], .late [def_b]] + 1) 1) :=
  C8_theorem [.early .FnSpace [def_b], .late [def_b]] [def_a] .RootScope
    ⟨5, 10⟩ 0 1 (by decide) (by decide) (by decide)

/-- C9: a reference to an undeclared, non-reserved name yields exactly one
UndeclaredLifetime report appended to the sink, no table entry, and the
walk continues (no abort); and any completed walk with a non-empty
diagnostic sink makes the pass as a whole fail. -/
theorem C9_theorem :
    (∀ (scope : ScopeChain) (l : Lifetime) (st : St),
       l.name ≠ static_lifetime_name →
       resolve_lifetime_ref l scope = none →
       visit_lifetime_ref scope l st =
         some ⟨st.named_region_map, st.errs ++ [.UndeclaredLifetime l.id]⟩) ∧
    (∀ (items : List Item) (st : St),
       visit_items .RootScope items ⟨[], []⟩ = some st →
       st.errs ≠ [] →
       krate items = some none) := by
  constructor
  · intro scope l st hname hres
    rw [visit_lifetime_ref, if_neg hname, resolve_and_insert, hres]
    rfl
  · intro items st h hne
    have hemp : st.errs.isEmpty = false := by
      cases herr : st.errs with
      | nil => exact absurd herr hne
      | cons a t => rfl
    simp [krate, h, hemp]

theorem C9_witness :
    visit_lifetime_ref .RootScope ⟨3, 99⟩ ⟨[], []⟩ =
      some ⟨[], [] ++ [.UndeclaredLifetime 3]⟩ ∧
    krate crate_undeclared = some none :=
  ⟨C9_theorem.1 .RootScope ⟨3, 99⟩ ⟨[], []⟩ (by decide) (by decide),
   C9_theorem.2 crate_undeclared ⟨[], [.UndeclaredLifetime 3]⟩ (by decide) (by decide)⟩

/-- C10, counterexample: a program with no declared lifetimes whose only
reference uses the reserved static name succeeds but produces a *non-empty*
table — the reference (node 3) is mapped to the static region — refuting
"empty result table ... including programs that contain lifetime
references, such as to the reserved static identifier". -/
theorem C10_counterexample :
    krate crate_static_ref = some (some [(3, .DefStaticRegion)]) ∧
    (some (some [(3, DefRegion.DefStaticRegion)]) :
        Option (Option (List (NodeId × DefRegion)))) ≠
      some (some []) :=
  ⟨rfl, by decide⟩

/-- C10, amended: every program that declares no lifetimes, contains no
lifetime references (not even reserved-name ones, which would receive
Static table entries), and whose where-clauses contain no
equality-predicate (which would abort the walk) produces an empty result
table and overall success. -/
theorem C10_theorem :
    ∀ (items : List Item), items_no_lifetimes items = true →
      krate items = some (some []) := by
  intro items h
  rw [krate, visit_items_nl items h .RootScope ⟨[], []⟩]
  rfl

theorem C10_witness :
    krate [.item_fn ⟨[], [], []⟩ [.ty_unit] .ty_unit (.mk 1 []),
           .item_mod [.item_static .ty_unit]] = some (some []) :=
  C10_theorem _ (by decide)

end ResolveLifetime
